import Mathlib

/- Verification of the slackdump message-dump tool (src/slackdump) against its
   specification.  The Python sources are shallowly embedded: pure functions
   become Lean functions, the HTTP request/pagination loops become fuelled
   recursions over an explicit response oracle, raised exceptions become
   Except values carrying the Python exception class and message, and
   filesystem writes become explicit effect traces.  Python floats (message
   timestamps) are modelled by rationals. -/

namespace Slackdump

/-- The Python exception classes the embedded code can raise. -/
inductive PyExcClass where
  | valueError
  | connectionError
  | ioError
  | permissionError
  deriving DecidableEq, Repr

/-- A raised Python exception: its class and its message string.  Quote
    characters inside source message strings are written with escapes. -/
structure PyError where
  cls : PyExcClass
  msg : String
  deriving DecidableEq, Repr

/-- An opaque reaction record from the API (ordered key-value pairs), stored
    verbatim. -/
abbrev Reaction := List (String × String)

/-- parser.py lines 16-35, class SlackMessage: one retrieved message.  The
    float timestamp is modelled as a rational; the reactions default mirrors
    the "reactions or []" normalisation of the constructor. -/
structure SlackMessage where
  text : String
  user : String
  timestamp : ℚ
  channel : String
  thread_ts : Option String := none
  reply_count : Nat := 0
  reactions : List Reaction := []
  deriving DecidableEq, Repr

/-- datetime.fromtimestamp: conversion of the epoch float to the local
    calendar timestamp.  Calendar timestamps are modelled by rationals and
    the conversion by the identity order embedding; every property proved
    below uses only the order on calendar timestamps, which the real
    conversion preserves. -/
def fromtimestamp (t : ℚ) : ℚ := t

/-- parser.py lines 37-40, SlackMessage.datetime: derived calendar
    timestamp. -/
def SlackMessage.datetimeOf (m : SlackMessage) : ℚ := fromtimestamp m.timestamp

/-! ## Filters (filters.py) -/

/-- filters.py lines 18-25, TimeRangeFilter: the two optional bounds.
    datetime objects are always truthy in Python, so the truth tests on these
    fields in the source are None tests. -/
structure TimeRangeFilter where
  start_time : Option ℚ := none
  end_time : Option ℚ := none
  deriving DecidableEq, Repr

/-- TimeRangeFilter.__init__, filters.py lines 21-28: store both bounds and
    raise ValueError exactly when both are present and the start is strictly
    after the end. -/
def TimeRangeFilter.init (start_time end_time : Option ℚ) :
    Except PyError TimeRangeFilter :=
  match start_time, end_time with
  | some s, some e =>
      if e < s then .error ⟨.valueError, "start_time must be before end_time"⟩
      else .ok ⟨some s, some e⟩
  | s, e => .ok ⟨s, e⟩

/-- TimeRangeFilter.__call__, filters.py lines 30-40. -/
def TimeRangeFilter.call (f : TimeRangeFilter) (m : SlackMessage) : Bool :=
  let msg_datetime := m.datetimeOf
  if f.start_time.any (fun s => decide (msg_datetime < s)) then false
  else if f.end_time.any (fun e => decide (e < msg_datetime)) then false
  else true

/-! ## filter_messages and export_messages (parser.py) -/

/-- parser.py lines 172-181, SlackMessageParser.filter_messages.  The filter
    objects are pure callables and are modelled as boolean predicates. -/
def filter_messages (messages : List SlackMessage)
    (filters : List (SlackMessage → Bool)) : List SlackMessage :=
  filters.foldl (fun acc f => acc.filter f) messages

/-- os.path.dirname: everything before the final path separator ("" when the
    path has none).  The trailing-slash normalisation of the real function is
    not exercised by any property below. -/
def dirname (p : String) : String :=
  ⟨(((p.data.reverse).dropWhile (fun c => c ≠ '/')).drop 1).reverse⟩

/-- Python str.lower, modelled character-wise (ASCII lowercasing). -/
def strLower (s : String) : String := ⟨s.data.map Char.toLower⟩

/-- One filesystem action performed by export_messages. -/
inductive FsEffect where
  | makedirs (dir : String)
  | fileWrite (path : String)
  deriving DecidableEq, Repr

/-- parser.py lines 183-242, SlackMessageParser.export_messages: the list of
    filesystem actions attempted, paired with the outcome.  Opening and
    writing the output file are modelled as succeeding (no property below
    exercises an environmental I/O failure), and directory creation is
    best-effort as in the source.  The ValueError raised for an unsupported
    format at line 232 is raised inside the try block whose final clause
    (line 241) catches every Exception and re-raises it as IOError with the
    message prefix "Error writing file: ", so an unsupported format surfaces
    as an IOError. -/
def export_messages (messages : List SlackMessage) (output_path : String)
    (format : String) : List FsEffect × Except PyError Unit :=
  if messages.isEmpty then ([], .ok ())
  else
    let eff0 : List FsEffect := [.makedirs (dirname output_path)]
    if strLower format = "json" then (eff0 ++ [.fileWrite output_path], .ok ())
    else if strLower format = "csv" then (eff0 ++ [.fileWrite output_path], .ok ())
    else
      (eff0, .error ⟨.ioError,
        "Error writing file: Unsupported format: " ++ format ++
          ". Use \x27json\x27 or \x27csv\x27"⟩)

/-! ## The raw message records and HTTP layer (parser.py) -/

/-- One raw message record of a conversations.history response body (a JSON
    object; an absent key is none).  The ts field holds the numeric value of
    the Slack ts string, since get_channel_messages only ever converts it to
    a float. -/
structure MsgData where
  text : Option String := none
  user : Option String := none
  ts : Option ℚ := none
  thread_ts : Option String := none
  reply_count : Option Nat := none
  reactions : Option (List Reaction) := none
  deriving DecidableEq, Repr

/-- get_channel_messages, parser.py lines 147-157: build one SlackMessage
    from one raw record, with the msg_data.get defaults. -/
def parseMessage (channel_id : String) (d : MsgData) : SlackMessage :=
  { text := d.text.getD ""
    user := d.user.getD ""
    timestamp := d.ts.getD 0
    channel := channel_id
    thread_ts := d.thread_ts
    reply_count := d.reply_count.getD 0
    reactions := d.reactions.getD [] }

/-- A response body as _make_request reads it: the ok flag, the optional
    error code, the message records and the optional pagination cursor.
    Cursors are modelled by naturals; none also stands for the empty-string
    cursor, which the source treats as absent. -/
structure SlackBody where
  ok : Bool := true
  error : Option String := none
  messages : List MsgData := []
  next_cursor : Option Nat := none
  deriving DecidableEq, Repr

/-- One delivered HTTP response as _make_request inspects it: the status
    code, the optional integer Retry-After header and the parsed JSON
    body. -/
structure HttpResp where
  status : Nat
  retryAfter : Option Nat := none
  body : SlackBody := {}
  deriving DecidableEq, Repr

/-- The outcome of one send attempt: either a delivered response or a
    transport failure (timeout, DNS failure, connection reset), which the
    source sees as a requests.exceptions.RequestException. -/
inductive HttpAttempt where
  | resp (r : HttpResp)
  | transportError (detail : String)
  deriving DecidableEq, Repr

/-- The ConnectionError _make_request raises at parser.py lines 115-118 for
    a transport-level failure. -/
def transportFailure (detail : String) : PyError :=
  ⟨.connectionError,
    "Network error: " ++ detail ++ ". Please check your connection and try again."⟩

/-- _make_request, parser.py lines 96-113 (with the except clause 115-118):
    handling of a response that is not rate limited.
    response.raise_for_status raises on any status of at least 400; that
    exception is a requests.RequestException, so the except clause turns it
    into a ConnectionError.  A body whose ok flag is false raises a
    ValueError whose message is chosen by the error code. -/
def handleResp (r : HttpResp) : Except PyError SlackBody :=
  if 400 ≤ r.status then
    .error (transportFailure ("HTTP status " ++ toString r.status))
  else if r.body.ok then .ok r.body
  else
    let error_msg := r.body.error.getD "Unknown error"
    if error_msg = "channel_not_found" then
      .error ⟨.valueError, "Channel not found. Please check the channel ID format (C...)"⟩
    else if error_msg = "invalid_auth" then
      .error ⟨.valueError, "Invalid authentication. Please check your token."⟩
    else
      .error ⟨.valueError, "Slack API error: " ++ error_msg⟩

/-- The outcome of the first attempt the retry loop does not retry. -/
def settle : HttpAttempt → Except PyError SlackBody
  | .resp r => handleResp r
  | .transportError s => .error (transportFailure s)

/-- Whether an attempt outcome is a rate-limited (status 429) response. -/
def is429 : HttpAttempt → Bool
  | .resp r => r.status == 429
  | .transportError _ => false

/-- The seconds slept for a rate-limited response: the integer Retry-After
    header, defaulting to 60 when the header is absent (parser.py
    line 91). -/
def waitOf : HttpAttempt → Nat
  | .resp r => r.retryAfter.getD 60
  | .transportError _ => 0

/-- _make_request, parser.py lines 82-118: the unbounded retry loop.  The
    url and params of the request never change inside the loop, so the
    attempts function gives the outcome of the n-th send of the identical
    request.  The result pairs the settled outcome with the list of sleeps
    performed, in seconds and in order, one per rate-limited response.  Fuel
    bounds the number of attempts modelled; none means the modelling budget
    was exhausted while every attempt seen was rate limited. -/
def makeRequest (attempts : Nat → HttpAttempt) :
    Nat → Option (Except PyError SlackBody × List Nat)
  | 0 => none
  | fuel + 1 =>
    match attempts 0 with
    | .resp r =>
        if r.status == 429 then
          (makeRequest (fun n => attempts (n + 1)) fuel).map
            (fun p => (p.1, r.retryAfter.getD 60 :: p.2))
        else some (handleResp r, [])
    | .transportError s => some (.error (transportFailure s), [])

/-! ## Pagination (parser.py, get_channel_messages) -/

/-- One conversations.history page request as the loop builds it at
    parser.py lines 129-135: the channel, the per-page limit parameter and
    the optional cursor. -/
structure PageRequest where
  channel : String
  limit : Nat
  cursor : Option Nat := none
  deriving DecidableEq, Repr

/-- A successful conversations.history response, as used by the pagination
    loop: the raw records and the optional next cursor (none also stands for
    the empty-string cursor, which the loop treats as absent). -/
structure PageResponse where
  messages : List MsgData := []
  next_cursor : Option Nat := none
  deriving DecidableEq, Repr

/-- Python truthiness of the optional int limit: None and 0 are falsy. -/
def limitTruthy : Option Nat → Bool
  | none => false
  | some l => l != 0

/-- get_channel_messages, parser.py lines 128-167: the while loop, carrying
    the accumulated messages, the fetched count, the current cursor and the
    trace of page requests issued.  The server function models a successful
    _make_request on conversations.history; a raising _make_request aborts
    the whole fetch by re-raising (lines 139-143) and is not modelled here.
    Fuel bounds the number of pages modelled. -/
def fetchPages (server : PageRequest → PageResponse) (channel_id : String)
    (limit : Option Nat) :
    Nat → List SlackMessage → Nat → Option Nat → List PageRequest →
    Option (List SlackMessage × List PageRequest)
  | 0, _, _, _, _ => none
  | fuel + 1, msgs, fetched, cursor, reqs =>
    let pageSize :=
      if limitTruthy limit then min 1000 (limit.getD 0 - fetched) else 1000
    let req : PageRequest := ⟨channel_id, pageSize, cursor⟩
    let resp := server req
    let msgs2 := msgs ++ resp.messages.map (parseMessage channel_id)
    let fetched2 := fetched + resp.messages.length
    if limitTruthy limit ∧ limit.getD 0 ≤ fetched2 then
      some (msgs2.take (limit.getD 0), reqs ++ [req])
    else
      match resp.next_cursor with
      | none => some (msgs2, reqs ++ [req])
      | some c =>
          fetchPages server channel_id limit fuel msgs2 fetched2 (some c)
            (reqs ++ [req])

/-- get_channel_messages, parser.py lines 120-170: run the pagination loop
    from the initial state (no messages, count 0, no cursor). -/
def get_channel_messages (server : PageRequest → PageResponse)
    (channel_id : String) (limit : Option Nat) (fuel : Nat) :
    Option (List SlackMessage × List PageRequest) :=
  fetchPages server channel_id limit fuel [] 0 none []

/-- The messages one page request yields, after record conversion. -/
def respMsgs (server : PageRequest → PageResponse) (channel_id : String)
    (r : PageRequest) : List SlackMessage :=
  ((server r).messages).map (parseMessage channel_id)

/-- The total number of raw records delivered for a request trace. -/
def pageCounts (server : PageRequest → PageResponse)
    (reqs : List PageRequest) : Nat :=
  (reqs.map (fun r => (server r).messages.length)).sum

/-- The concatenation of all pages of a request trace, converted. -/
def joinedPages (server : PageRequest → PageResponse) (channel_id : String)
    (reqs : List PageRequest) : List SlackMessage :=
  (reqs.map (respMsgs server channel_id)).flatten

/-! ## A concrete page server for the pagination scenarios

The scenario of the specification: a channel holding 2400 messages served
in cursor-ordered pages of at most the requested page size. -/

/-- A server backed by a fixed list of records: the cursor is the offset,
    each request is answered with the next records up to the requested
    page-size limit, and a next cursor is returned while records remain. -/
def listServer (store : List MsgData) (req : PageRequest) : PageResponse :=
  let offset := req.cursor.getD 0
  let page := (store.drop offset).take req.limit
  { messages := page
    next_cursor :=
      if offset + page.length < store.length then some (offset + page.length)
      else none }

/-- A store of 2400 identical raw records. -/
def store2400 : List MsgData := List.replicate 2400 {}

/-! ## The regular-expression engine (model of the Python re module)

Modelled from the spec: filters.py calls the external Python re module,
which is not part of this repository.  The fragment modelled covers
literals, the dot, alternation, grouping, the three quantifiers and their
lazy variants, and escaped punctuation; the syntax errors modelled are
unbalanced parentheses, a quantifier with nothing to repeat, a doubled
quantifier, a trailing backslash, and the constructs outside the fragment
(character classes, counted repeats, anchors, alphanumeric escapes,
possessive quantifiers).  The IGNORECASE flag is modelled by case-folding
both sides of every literal comparison, with ASCII lowercasing as the
fold. -/

/-- Abstract syntax of the modelled regular expressions. -/
inductive Re where
  | failure : Re
  | eps : Re
  | lit : Char → Re
  | anyc : Re
  | cat : Re → Re → Re
  | alt : Re → Re → Re
  | star : Re → Re
  deriving DecidableEq, Repr

/-- Whether a regular expression accepts the empty word. -/
def nullable : Re → Bool
  | .failure => false
  | .eps => true
  | .lit _ => false
  | .anyc => false
  | .cat a b => nullable a && nullable b
  | .alt a b => nullable a || nullable b
  | .star _ => true

/-- Comparison of a pattern character with an input character; with the
    IGNORECASE flag both sides are case-folded first. -/
def charMatch (ci : Bool) (pc ic : Char) : Bool :=
  if ci then pc.toLower == ic.toLower else pc == ic

/-- Brzozowski derivative of a regular expression by one input
    character. -/
def derivRe (ci : Bool) : Re → Char → Re
  | .failure, _ => .failure
  | .eps, _ => .failure
  | .lit a, c => if charMatch ci a c then .eps else .failure
  | .anyc, _ => .eps
  | .cat a b, c =>
      if nullable a then .alt (.cat (derivRe ci a c) b) (derivRe ci b c)
      else .cat (derivRe ci a c) b
  | .alt a b, c => .alt (derivRe ci a c) (derivRe ci b c)
  | .star a, c => .cat (derivRe ci a c) (.star a)

/-- Whole-word matching via iterated derivatives. -/
def matchRe (ci : Bool) : Re → List Char → Bool
  | r, [] => nullable r
  | r, c :: s => matchRe ci (derivRe ci r c) s

/-- Whether some prefix of the input matches. -/
def matchPref (ci : Bool) : Re → List Char → Bool
  | r, [] => nullable r
  | r, c :: s => nullable r || matchPref ci (derivRe ci r c) s

/-- re.search: whether the pattern matches somewhere inside the input. -/
def reSearch (ci : Bool) (r : Re) : List Char → Bool
  | [] => nullable r
  | c :: s => matchPref ci r (c :: s) || reSearch ci r s

/-- Case-folding a pattern: fold every literal. -/
def lowerRe : Re → Re
  | .failure => .failure
  | .eps => .eps
  | .lit c => .lit c.toLower
  | .anyc => .anyc
  | .cat a b => .cat (lowerRe a) (lowerRe b)
  | .alt a b => .alt (lowerRe a) (lowerRe b)
  | .star a => .star (lowerRe a)

/-- The language of the modelled regular expressions: the standard
    mathematical regular-expression matching relation, used as the
    spec-side meaning of "the pattern matches". -/
inductive Accepts : Re → List Char → Prop where
  | eps : Accepts .eps []
  | lit (c : Char) : Accepts (.lit c) [c]
  | anyChar (c : Char) : Accepts .anyc [c]
  | cat {r₁ r₂ : Re} {u v : List Char} :
      Accepts r₁ u → Accepts r₂ v → Accepts (.cat r₁ r₂) (u ++ v)
  | altL {r₁ r₂ : Re} {w : List Char} :
      Accepts r₁ w → Accepts (.alt r₁ r₂) w
  | altR {r₁ r₂ : Re} {w : List Char} :
      Accepts r₂ w → Accepts (.alt r₁ r₂) w
  | starNil {r : Re} : Accepts (.star r) []
  | starCons {r : Re} {c : Char} {u v : List Char} :
      Accepts r (c :: u) → Accepts (.star r) v →
      Accepts (.star r) (c :: u ++ v)

/-- The modelled re.error conditions. -/
inductive ReErr where
  | unbalanced
  | nothingToRepeat
  | multipleRepeat
  | trailingBackslash
  | unsupported
  | internalFuel
  deriving DecidableEq, Repr

/-- Whether a character is one of the three quantifiers. -/
def isQuant (c : Char) : Bool := c == '*' || c == '+' || c == '?'

/-- Apply one quantifier character to an atom. -/
def quantify (q : Char) (r : Re) : Re :=
  if q == '*' then .star r
  else if q == '+' then .cat r (.star r)
  else .alt .eps r

/-- Consume an optional quantifier (and an optional lazy modifier) after an
    atom; a further quantifier is the multiple-repeat error, as in re before
    possessive quantifiers. -/
def parseQuant (r : Re) (s : List Char) : Except ReErr (Re × List Char) :=
  match s with
  | [] => .ok (r, [])
  | q :: rest =>
    if isQuant q then
      let r2 := quantify q r
      match rest with
      | '?' :: rest2 =>
          match rest2 with
          | q2 :: _ => if isQuant q2 then .error .multipleRepeat else .ok (r2, rest2)
          | [] => .ok (r2, [])
      | q2 :: _ => if isQuant q2 then .error .multipleRepeat else .ok (r2, rest)
      | [] => .ok (r2, [])
    else .ok (r, s)

mutual

/-- Parse an alternation (the whole grammar level). -/
def parseAlt : Nat → List Char → Except ReErr (Re × List Char)
  | 0, _ => .error .internalFuel
  | fuel + 1, s =>
    match parseCat fuel s with
    | .error e => .error e
    | .ok (r, rest) => parseAltRest fuel r rest

/-- Parse the remaining pipe-separated branches. -/
def parseAltRest : Nat → Re → List Char → Except ReErr (Re × List Char)
  | 0, _, _ => .error .internalFuel
  | fuel + 1, acc, s =>
    match s with
    | '|' :: rest =>
        match parseCat fuel rest with
        | .error e => .error e
        | .ok (r, rest2) => parseAltRest fuel (.alt acc r) rest2
    | _ => .ok (acc, s)

/-- Parse a concatenation of quantified atoms. -/
def parseCat : Nat → List Char → Except ReErr (Re × List Char)
  | 0, _ => .error .internalFuel
  | fuel + 1, s => parseCatRest fuel .eps s

/-- Parse the atoms of a concatenation one by one, accumulating on the
    left; stops at the end of input, a closing parenthesis or a pipe. -/
def parseCatRest : Nat → Re → List Char → Except ReErr (Re × List Char)
  | 0, _, _ => .error .internalFuel
  | fuel + 1, acc, s =>
    match s with
    | [] => .ok (acc, [])
    | c :: rest =>
      if c = ')' ∨ c = '|' then .ok (acc, s)
      else if isQuant c then .error .nothingToRepeat
      else if c = '(' then
        match parseAlt fuel rest with
        | .error e => .error e
        | .ok (r, rest2) =>
          match rest2 with
          | ')' :: rest3 =>
              match parseQuant r rest3 with
              | .error e => .error e
              | .ok (r2, rest4) => parseCatRest fuel (.cat acc r2) rest4
          | _ => .error .unbalanced
      else if c = '\\' then
        match rest with
        | [] => .error .trailingBackslash
        | e :: rest2 =>
          if e.isAlphanum then .error .unsupported
          else
            match parseQuant (.lit e) rest2 with
            | .error err => .error err
            | .ok (r2, rest3) => parseCatRest fuel (.cat acc r2) rest3
      else if c = '[' ∨ c = '{' ∨ c = '^' ∨ c = '$' then .error .unsupported
      else
        let atom := if c = '.' then Re.anyc else Re.lit c
        match parseQuant atom rest with
        | .error err => .error err
        | .ok (r2, rest2) => parseCatRest fuel (.cat acc r2) rest2

end

/-- re.compile on the pattern string: parse the whole pattern; leftover
    input after the top-level alternation is an unbalanced closing
    parenthesis. -/
def reParse (pattern : String) : Except ReErr Re :=
  match parseAlt (4 * pattern.length + 8) pattern.data with
  | .error e => .error e
  | .ok (r, []) => .ok r
  | .ok (_, _ :: _) => .error .unbalanced

/-- filters.py lines 43-55, RegexFilter: the stored pattern, flag and
    compiled regular expression. -/
structure RegexFilter where
  pattern : String
  case_sensitive : Bool
  regex : Re
  deriving DecidableEq, Repr

/-- RegexFilter.__init__, filters.py lines 46-55: compile the pattern (with
    IGNORECASE when not case-sensitive) and raise ValueError on a re.error. -/
def RegexFilter.init (pattern : String) (case_sensitive : Bool) :
    Except PyError RegexFilter :=
  match reParse pattern with
  | .ok r => .ok ⟨pattern, case_sensitive, r⟩
  | .error _ =>
      .error ⟨.valueError, "Invalid regex pattern \x27" ++ pattern ++ "\x27"⟩

/-- RegexFilter.__call__, filters.py lines 57-59: bool(regex.search(text)),
    case-insensitively when the IGNORECASE flag is set. -/
def RegexFilter.call (f : RegexFilter) (m : SlackMessage) : Bool :=
  reSearch (!f.case_sensitive) f.regex m.text.data

/-! ## The CLI error report (cli.py) and concrete fixtures -/

/-- cli.py lines 198-219, main: the label under which the top-level handler
    reports a raised exception before exiting with code 1 (ValueError is
    reported as a configuration error, ConnectionError as a network error,
    anything else as unexpected; the IOError and PermissionError raised by
    export are caught earlier, at lines 181-186, under a plain error
    label). -/
def mainErrorLabel (e : PyError) : String :=
  match e.cls with
  | .valueError => "Configuration Error"
  | .connectionError => "Network Error"
  | _ => "Unexpected Error"

/-- A well-formed failure response carrying the channel_not_found code. -/
def respChanNF : HttpResp :=
  { status := 200, body := { ok := false, error := some "channel_not_found" } }

/-- A well-formed failure response carrying an unclassified error code. -/
def respOtherError : HttpResp :=
  { status := 200, body := { ok := false, error := some "fatal_error" } }

/-- A concrete message fixture. -/
def msgA : SlackMessage :=
  { text := "hello", user := "U1", timestamp := 2, channel := "C1" }

/-- A second message fixture with upper-case text. -/
def msgB : SlackMessage :=
  { text := "AB", user := "U2", timestamp := 3, channel := "C1" }

/-- A one-page server used to witness the pagination theorems: every request
    is answered with a single record and no continuation cursor. -/
def oneMsgServer : PageRequest → PageResponse := fun _ => { messages := [{}] }

/-- An attempt stream for the rate-limit witness: one rate-limited response
    carrying Retry-After 5, then a plain success. -/
def demoAttempts : Nat → HttpAttempt := fun k =>
  if k = 0 then .resp { status := 429, retryAfter := some 5 } else .resp { status := 200 }

/-- A filter fixture accepting every message. -/
def fAll : SlackMessage → Bool := fun _ => true

/-- A filter fixture accepting messages whose text is hello. -/
def fHello : SlackMessage → Bool := fun m => m.text == "hello"

/-! ## Pagination lemmas -/

lemma listServer_a : listServer store2400 ⟨"C1", 1000, none⟩ =
    ⟨List.replicate 1000 ({} : MsgData), some 1000⟩ := by
  unfold listServer store2400
  dsimp only [Option.getD]
  rw [List.drop_replicate, List.take_replicate, List.length_replicate, List.length_replicate]
  norm_num

lemma listServer_b : listServer store2400 ⟨"C1", 1000, some 1000⟩ =
    ⟨List.replicate 1000 ({} : MsgData), some 2000⟩ := by
  unfold listServer store2400
  dsimp only [Option.getD]
  rw [List.drop_replicate, List.take_replicate, List.length_replicate, List.length_replicate]
  norm_num

lemma listServer_c : listServer store2400 ⟨"C1", 1000, some 2000⟩ =
    ⟨List.replicate 400 ({} : MsgData), none⟩ := by
  unfold listServer store2400
  dsimp only [Option.getD]
  rw [List.drop_replicate, List.take_replicate, List.length_replicate, List.length_replicate]
  norm_num

lemma listServer_d : listServer store2400 ⟨"C1", 500, some 1000⟩ =
    ⟨List.replicate 500 ({} : MsgData), some 1500⟩ := by
  unfold listServer store2400
  dsimp only [Option.getD]
  rw [List.drop_replicate, List.take_replicate, List.length_replicate, List.length_replicate]
  norm_num

lemma fetchPages_nolimit_step (server : PageRequest → PageResponse) (ch : String)
    (fuel : Nat) (msgs : List SlackMessage) (fetched : Nat) (cursor : Option Nat)
    (reqs : List PageRequest) :
    fetchPages server ch none (fuel + 1) msgs fetched cursor reqs =
      match (server ⟨ch, 1000, cursor⟩).next_cursor with
      | none => some (msgs ++ (server ⟨ch, 1000, cursor⟩).messages.map (parseMessage ch),
          reqs ++ [⟨ch, 1000, cursor⟩])
      | some c => fetchPages server ch none fuel
          (msgs ++ (server ⟨ch, 1000, cursor⟩).messages.map (parseMessage ch))
          (fetched + (server ⟨ch, 1000, cursor⟩).messages.length) (some c)
          (reqs ++ [⟨ch, 1000, cursor⟩]) := by
  rw [fetchPages]
  simp only [limitTruthy, Bool.false_eq_true, false_and, if_false]

lemma fetchPages_limit_step_stop (server : PageRequest → PageResponse) (ch : String)
    (l fuel : Nat) (msgs : List SlackMessage) (fetched : Nat) (cursor : Option Nat)
    (reqs : List PageRequest) (hl : l ≠ 0)
    (hstop : l ≤ fetched + (server ⟨ch, min 1000 (l - fetched), cursor⟩).messages.length) :
    fetchPages server ch (some l) (fuel + 1) msgs fetched cursor reqs =
      some ((msgs ++ (server ⟨ch, min 1000 (l - fetched), cursor⟩).messages.map (parseMessage ch)).take l,
        reqs ++ [⟨ch, min 1000 (l - fetched), cursor⟩]) := by
  rw [fetchPages]
  simp only [limitTruthy, Option.getD, bne_iff_ne, ne_eq, hl, not_false_iff, if_true, true_and]
  rw [if_pos hstop]

lemma fetchPages_limit_step_go (server : PageRequest → PageResponse) (ch : String)
    (l fuel : Nat) (msgs : List SlackMessage) (fetched : Nat) (cursor : Option Nat)
    (reqs : List PageRequest) (hl : l ≠ 0)
    (hgo : fetched + (server ⟨ch, min 1000 (l - fetched), cursor⟩).messages.length < l) :
    fetchPages server ch (some l) (fuel + 1) msgs fetched cursor reqs =
      match (server ⟨ch, min 1000 (l - fetched), cursor⟩).next_cursor with
      | none => some (msgs ++ (server ⟨ch, min 1000 (l - fetched), cursor⟩).messages.map (parseMessage ch),
          reqs ++ [⟨ch, min 1000 (l - fetched), cursor⟩])
      | some c => fetchPages server ch (some l) fuel
          (msgs ++ (server ⟨ch, min 1000 (l - fetched), cursor⟩).messages.map (parseMessage ch))
          (fetched + (server ⟨ch, min 1000 (l - fetched), cursor⟩).messages.length) (some c)
          (reqs ++ [⟨ch, min 1000 (l - fetched), cursor⟩]) := by
  rw [fetchPages]
  simp only [limitTruthy, Option.getD, bne_iff_ne, ne_eq, hl, not_false_iff, if_true, true_and]
  rw [if_neg (Nat.not_le.mpr hgo)]

lemma scenarioA : get_channel_messages (listServer store2400) "C1" none 5 =
    some (List.replicate 2400 (parseMessage "C1" {}),
      [⟨"C1", 1000, none⟩, ⟨"C1", 1000, some 1000⟩, ⟨"C1", 1000, some 2000⟩]) := by
  show fetchPages (listServer store2400) "C1" none (4 + 1) [] 0 none [] = _
  rw [fetchPages_nolimit_step, listServer_a]
  dsimp only
  show fetchPages (listServer store2400) "C1" none (3 + 1) _ _ _ _ = _
  rw [fetchPages_nolimit_step, listServer_b]
  dsimp only
  show fetchPages (listServer store2400) "C1" none (2 + 1) _ _ _ _ = _
  rw [fetchPages_nolimit_step, listServer_c]
  dsimp only
  simp only [List.map_replicate, List.nil_append, List.append_assoc]
  rw [← List.replicate_add, ← List.replicate_add]
  norm_num

lemma scenarioB : get_channel_messages (listServer store2400) "C1" (some 1500) 5 =
    some (List.replicate 1500 (parseMessage "C1" {}),
      [⟨"C1", 1000, none⟩, ⟨"C1", 500, some 1000⟩]) := by
  have e1 : min 1000 (1500 - 0) = 1000 := by norm_num
  have hgo1 : 0 + (listServer store2400 ⟨"C1", min 1000 (1500 - 0), none⟩).messages.length < 1500 := by
    rw [e1, listServer_a]
    dsimp only
    rw [List.length_replicate]
    norm_num
  show fetchPages (listServer store2400) "C1" (some 1500) (4 + 1) [] 0 none [] = _
  rw [fetchPages_limit_step_go (listServer store2400) "C1" 1500 4 [] 0 none [] (by norm_num) hgo1]
  rw [e1, listServer_a]
  dsimp only
  simp only [List.map_replicate, List.length_replicate, List.nil_append]
  norm_num
  have e2 : min 1000 (1500 - 1000) = 500 := by norm_num
  have hstop2 : 1500 ≤ 1000 + (listServer store2400 ⟨"C1", min 1000 (1500 - 1000), some 1000⟩).messages.length := by
    rw [e2, listServer_d]
    dsimp only
    rw [List.length_replicate]
  show fetchPages (listServer store2400) "C1" (some 1500) (3 + 1) _ _ _ _ = _
  rw [fetchPages_limit_step_stop (listServer store2400) "C1" 1500 3 _ 1000 _ _ (by norm_num) hstop2]
  rw [e2, listServer_d]
  dsimp only
  simp only [List.map_replicate]
  rw [← List.replicate_add]
  norm_num

lemma pageCounts_nil (server : PageRequest → PageResponse) : pageCounts server [] = 0 := rfl

lemma pageCounts_cons (server : PageRequest → PageResponse) (r : PageRequest)
    (t : List PageRequest) :
    pageCounts server (r :: t) = (server r).messages.length + pageCounts server t := by
  simp [pageCounts]

lemma joinedPages_nil (server : PageRequest → PageResponse) (ch : String) :
    joinedPages server ch [] = [] := rfl

lemma joinedPages_cons (server : PageRequest → PageResponse) (ch : String)
    (r : PageRequest) (t : List PageRequest) :
    joinedPages server ch (r :: t) = respMsgs server ch r ++ joinedPages server ch t := by
  simp [joinedPages]

lemma length_joinedPages (server : PageRequest → PageResponse) (ch : String)
    (reqs : List PageRequest) :
    (joinedPages server ch reqs).length = pageCounts server reqs := by
  induction reqs with
  | nil => rfl
  | cons r t ih => rw [joinedPages_cons, pageCounts_cons, List.length_append, ih]
                   simp [respMsgs]

lemma fetchPages_limit_inv (server : PageRequest → PageResponse) (ch : String)
    (l : Nat) (hl : l ≠ 0) :
    ∀ fuel msgs0 f0 c0 r0 msgs reqs,
      f0 < l →
      fetchPages server ch (some l) fuel msgs0 f0 c0 r0 = some (msgs, reqs) →
      ∃ new, new ≠ [] ∧ reqs = r0 ++ new ∧
        (∀ k, k + 1 < new.length → f0 + pageCounts server (new.take (k + 1)) < l) ∧
        ((l ≤ f0 + pageCounts server new ∧
            msgs = (msgs0 ++ joinedPages server ch new).take l) ∨
         (f0 + pageCounts server new < l ∧
            msgs = msgs0 ++ joinedPages server ch new)) := by
  intro fuel
  induction fuel with
  | zero =>
    intro msgs0 f0 c0 r0 msgs reqs hf0 h
    simp [fetchPages] at h
  | succ fuel ih =>
    intro msgs0 f0 c0 r0 msgs reqs hf0 h
    by_cases hstop : l ≤ f0 + (server ⟨ch, min 1000 (l - f0), c0⟩).messages.length
    · rw [fetchPages_limit_step_stop server ch l fuel msgs0 f0 c0 r0 hl hstop] at h
      obtain ⟨hm, hr⟩ := Prod.mk.injEq .. ▸ Option.some.inj h
      refine ⟨[⟨ch, min 1000 (l - f0), c0⟩], by simp, hr.symm, ?_, Or.inl ⟨?_, ?_⟩⟩
      · intro k hk; simp at hk
      · rw [pageCounts_cons, pageCounts_nil]; omega
      · rw [← hm, joinedPages_cons, joinedPages_nil, List.append_nil]
        rfl
    · push_neg at hstop
      rw [fetchPages_limit_step_go server ch l fuel msgs0 f0 c0 r0 hl hstop] at h
      cases hnc : (server ⟨ch, min 1000 (l - f0), c0⟩).next_cursor with
      | none =>
        rw [hnc] at h
        obtain ⟨hm, hr⟩ := Prod.mk.injEq .. ▸ Option.some.inj h
        refine ⟨[⟨ch, min 1000 (l - f0), c0⟩], by simp, hr.symm, ?_, Or.inr ⟨?_, ?_⟩⟩
        · intro k hk; simp at hk
        · rw [pageCounts_cons, pageCounts_nil]; omega
        · rw [← hm, joinedPages_cons, joinedPages_nil, List.append_nil]
          rfl
      | some c =>
        rw [hnc] at h
        obtain ⟨new', hne', hr', hthird', hdisj'⟩ :=
          ih _ (f0 + (server ⟨ch, min 1000 (l - f0), c0⟩).messages.length) _ _ _ _ hstop h
        refine ⟨⟨ch, min 1000 (l - f0), c0⟩ :: new', by simp, ?_, ?_, ?_⟩
        · rw [hr', List.append_assoc, List.singleton_append]
        · intro k hk
          cases k with
          | zero =>
            rw [List.take_succ_cons, List.take_zero]
            rw [pageCounts_cons, pageCounts_nil]
            omega
          | succ k =>
            rw [List.take_succ_cons, pageCounts_cons]
            have hk2 : k + 1 < new'.length := by
              simp only [List.length_cons] at hk
              omega
            have := hthird' k hk2
            omega
        · rcases hdisj' with ⟨hle, hm⟩ | ⟨hlt, hm⟩
          · refine Or.inl ⟨?_, ?_⟩
            · rw [pageCounts_cons]; omega
            · rw [hm, joinedPages_cons, ← List.append_assoc]
              rfl
          · refine Or.inr ⟨?_, ?_⟩
            · rw [pageCounts_cons]; omega
            · rw [hm, joinedPages_cons, ← List.append_assoc]
              rfl

lemma fetchPages_nolimit_inv (server : PageRequest → PageResponse) (ch : String) :
    ∀ fuel msgs0 f0 c0 r0 msgs reqs,
      fetchPages server ch none fuel msgs0 f0 c0 r0 = some (msgs, reqs) →
      ∃ new, new ≠ [] ∧ reqs = r0 ++ new ∧
        msgs = msgs0 ++ joinedPages server ch new ∧
        (∀ r, new.head? = some r → r.cursor = c0) ∧
        (∀ k r r', new[k]? = some r → new[k + 1]? = some r' →
           (server r).next_cursor = r'.cursor ∧ r'.cursor ≠ none) ∧
        (∀ r, new.getLast? = some r → (server r).next_cursor = none) ∧
        (∀ r, r ∈ new → r.limit = 1000 ∧ r.channel = ch) := by
  intro fuel
  induction fuel with
  | zero =>
    intro msgs0 f0 c0 r0 msgs reqs h
    simp [fetchPages] at h
  | succ fuel ih =>
    intro msgs0 f0 c0 r0 msgs reqs h
    rw [fetchPages_nolimit_step] at h
    cases hnc : (server ⟨ch, 1000, c0⟩).next_cursor with
    | none =>
      rw [hnc] at h
      obtain ⟨hm, hr⟩ := Prod.mk.injEq .. ▸ Option.some.inj h
      refine ⟨[⟨ch, 1000, c0⟩], by simp, hr.symm, ?_, ?_, ?_, ?_, ?_⟩
      · rw [← hm, joinedPages_cons, joinedPages_nil, List.append_nil]
        rfl
      · intro r hr2
        simp only [List.head?_cons, Option.some.injEq] at hr2
        rw [← hr2]
      · intro k r r' h1 h2
        cases k with
        | zero => simp at h2
        | succ k => simp at h1
      · intro r hr2
        simp only [List.getLast?_singleton, Option.some.injEq] at hr2
        rw [← hr2, hnc]
      · intro r hr2
        simp only [List.mem_singleton] at hr2
        rw [hr2]
        exact ⟨rfl, rfl⟩
    | some c =>
      rw [hnc] at h
      obtain ⟨new', hne', hr', hm', hhead', hchain', hlast', hmem'⟩ := ih _ _ _ _ _ _ h
      refine ⟨⟨ch, 1000, c0⟩ :: new', by simp, ?_, ?_, ?_, ?_, ?_, ?_⟩
      · rw [hr', List.append_assoc, List.singleton_append]
      · rw [hm', joinedPages_cons, ← List.append_assoc]
        rfl
      · intro r hr2
        simp only [List.head?_cons, Option.some.injEq] at hr2
        rw [← hr2]
      · intro k r r' h1 h2
        cases k with
        | zero =>
          simp only [List.getElem?_cons_zero, Option.some.injEq] at h1
          simp only [List.getElem?_cons_succ] at h2
          have hh : r'.cursor = some c := by
            cases hnew : new' with
            | nil => rw [hnew] at h2; simp at h2
            | cons a t =>
              rw [hnew] at h2
              simp only [List.getElem?_cons_zero, Option.some.injEq] at h2
              have := hhead' a (by rw [hnew]; rfl)
              rw [← h2, this]
          constructor
          · rw [← h1, hnc, hh]
          · rw [hh]; simp
        | succ k =>
          simp only [List.getElem?_cons_succ] at h1 h2
          exact hchain' k r r' h1 h2
      · intro r hr2
        obtain ⟨a, t, htl⟩ := List.exists_cons_of_ne_nil hne'
        rw [htl, List.getLast?_cons_cons] at hr2
        refine hlast' r ?_
        rw [htl]
        exact hr2
      · intro r hr2
        rcases List.mem_cons.mp hr2 with h1 | h1
        · rw [h1]; exact ⟨rfl, rfl⟩
        · exact hmem' r h1

lemma fetchPages_zero_step (server : PageRequest → PageResponse) (ch : String)
    (fuel : Nat) (msgs : List SlackMessage) (fetched : Nat) (cursor : Option Nat)
    (reqs : List PageRequest) :
    fetchPages server ch (some 0) (fuel + 1) msgs fetched cursor reqs =
      match (server ⟨ch, 1000, cursor⟩).next_cursor with
      | none => some (msgs ++ (server ⟨ch, 1000, cursor⟩).messages.map (parseMessage ch),
          reqs ++ [⟨ch, 1000, cursor⟩])
      | some c => fetchPages server ch (some 0) fuel
          (msgs ++ (server ⟨ch, 1000, cursor⟩).messages.map (parseMessage ch))
          (fetched + (server ⟨ch, 1000, cursor⟩).messages.length) (some c)
          (reqs ++ [⟨ch, 1000, cursor⟩]) := by
  rw [fetchPages]
  simp only [limitTruthy, bne_self_eq_false, Bool.false_eq_true, false_and, if_false]

lemma fetchPages_zero_eq_none (server : PageRequest → PageResponse) (ch : String) :
    ∀ fuel msgs fetched cursor reqs,
      fetchPages server ch (some 0) fuel msgs fetched cursor reqs =
        fetchPages server ch none fuel msgs fetched cursor reqs := by
  intro fuel
  induction fuel with
  | zero => intro msgs fetched cursor reqs; rfl
  | succ fuel ih =>
    intro msgs fetched cursor reqs
    rw [fetchPages_zero_step, fetchPages_nolimit_step]
    cases hnc : (server ⟨ch, 1000, cursor⟩).next_cursor with
    | none => simp only [hnc]
    | some c =>
      simp only [hnc]
      exact ih _ _ _ _

/-- C1: with a positive limit, the fetched sequence is truncated to exactly
    the limit as soon as the accumulated count reaches or exceeds it, and
    every page request except the last was issued while the accumulated
    count was still below the limit (no further page request after the limit
    is reached); with no limit the pages chain exactly along the returned
    non-empty cursors until a response carries none; concretely, pages of
    sizes 1000, 1000, 400 from a 2400-record channel yield 2400 messages in
    three requests without a limit, and exactly 1500 messages in two
    requests with limit 1500. -/
theorem spec_fetch_pagination_limit :
    (∀ (server : PageRequest → PageResponse) (ch : String) (l fuel : Nat)
        (msgs : List SlackMessage) (reqs : List PageRequest), 0 < l →
        get_channel_messages server ch (some l) fuel = some (msgs, reqs) →
        msgs.length ≤ l ∧
        (l ≤ pageCounts server reqs → msgs.length = l) ∧
        (∀ k, k + 1 < reqs.length → pageCounts server (reqs.take (k + 1)) < l)) ∧
    (∀ (server : PageRequest → PageResponse) (ch : String) (fuel : Nat)
        (msgs : List SlackMessage) (reqs : List PageRequest),
        get_channel_messages server ch none fuel = some (msgs, reqs) →
        msgs = joinedPages server ch reqs ∧
        (∀ k r r', reqs[k]? = some r → reqs[k + 1]? = some r' →
            (server r).next_cursor = r'.cursor ∧ r'.cursor ≠ none) ∧
        (∀ r, reqs.getLast? = some r → (server r).next_cursor = none)) ∧
    get_channel_messages (listServer store2400) "C1" none 5 =
      some (List.replicate 2400 (parseMessage "C1" {}),
        [⟨"C1", 1000, none⟩, ⟨"C1", 1000, some 1000⟩, ⟨"C1", 1000, some 2000⟩]) ∧
    get_channel_messages (listServer store2400) "C1" (some 1500) 5 =
      some (List.replicate 1500 (parseMessage "C1" {}),
        [⟨"C1", 1000, none⟩, ⟨"C1", 500, some 1000⟩]) := by
  refine ⟨?_, ?_, scenarioA, scenarioB⟩
  · intro server ch l fuel msgs reqs hl h
    obtain ⟨new, hne, hreq, hthird, hdisj⟩ :=
      fetchPages_limit_inv server ch l (Nat.pos_iff_ne_zero.mp hl) fuel
        [] 0 none [] msgs reqs hl h
    rw [List.nil_append] at hreq
    subst hreq
    refine ⟨?_, ?_, ?_⟩
    · rcases hdisj with ⟨hle, hm⟩ | ⟨hlt, hm⟩
      · rw [hm, List.length_take]
        exact Nat.min_le_left _ _
      · rw [hm, List.nil_append, length_joinedPages]
        omega
    · intro hcount
      rcases hdisj with ⟨hle, hm⟩ | ⟨hlt, hm⟩
      · rw [hm, List.length_take, List.nil_append, length_joinedPages]
        exact Nat.min_eq_left hcount
      · omega
    · intro k hk
      have := hthird k hk
      omega
  · intro server ch fuel msgs reqs h
    obtain ⟨new, hne, hreq, hm, _, hchain, hlast, _⟩ :=
      fetchPages_nolimit_inv server ch fuel [] 0 none [] msgs reqs h
    rw [List.nil_append] at hreq
    subst hreq
    rw [List.nil_append] at hm
    exact ⟨hm, hchain, hlast⟩

/-- C1 witness: the limit-truncation part of the theorem at a concrete
    one-page server with limit 1. -/
theorem spec_fetch_pagination_limit_witness :
    ([parseMessage "C" {}] : List SlackMessage).length ≤ 1 :=
  (spec_fetch_pagination_limit.1 oneMsgServer "C" 1 1 [parseMessage "C" {}]
      [⟨"C", 1, none⟩] (by decide) (by rfl)).1

/-- C10: a limit of 0 is falsy in the source conditions, so fetching with
    limit 0 behaves exactly like fetching with no limit: every page is
    requested with page size 1000, pagination continues until a response
    carries no cursor, and no truncation is applied (the result is the
    concatenation of all pages). -/
theorem spec_fetch_zero_limit :
    (∀ (server : PageRequest → PageResponse) (ch : String) (fuel : Nat),
        get_channel_messages server ch (some 0) fuel =
          get_channel_messages server ch none fuel) ∧
    (∀ (server : PageRequest → PageResponse) (ch : String) (fuel : Nat)
        (msgs : List SlackMessage) (reqs : List PageRequest),
        get_channel_messages server ch (some 0) fuel = some (msgs, reqs) →
        msgs = joinedPages server ch reqs ∧
        (∀ r, r ∈ reqs → r.limit = 1000) ∧
        (∀ r, reqs.getLast? = some r → (server r).next_cursor = none)) := by
  constructor
  · intro server ch fuel
    exact fetchPages_zero_eq_none server ch fuel [] 0 none []
  · intro server ch fuel msgs reqs h
    unfold get_channel_messages at h
    rw [fetchPages_zero_eq_none] at h
    obtain ⟨new, hne, hreq, hm, _, _, hlast, hmem⟩ :=
      fetchPages_nolimit_inv server ch fuel [] 0 none [] msgs reqs h
    rw [List.nil_append] at hreq
    subst hreq
    rw [List.nil_append] at hm
    exact ⟨hm, fun r hr => (hmem r hr).1, hlast⟩

/-- C10 witness: the zero-limit fetch at the one-page server returns the
    whole (single-page) channel content. -/
theorem spec_fetch_zero_limit_witness :
    ([parseMessage "C" {}] : List SlackMessage) =
      joinedPages oneMsgServer "C" [⟨"C", 1000, none⟩] :=
  (spec_fetch_zero_limit.2 oneMsgServer "C" 1 [parseMessage "C" {}]
      [⟨"C", 1000, none⟩] (by rfl)).1

/-! ## The rate-limit retry loop -/

/-- C2: when the first n attempts of a request all come back rate limited
    (status 429) and attempt n does not, the request loop sleeps exactly
    once per rate-limited response — for the Retry-After number of seconds,
    or 60 when the header is absent, as recorded by waitOf — re-sends the
    identical request each time with no bound on n, and settles with the
    outcome of the first non-rate-limited attempt: every other failure
    (transport error, HTTP error status, failure body) is surfaced at once
    and never retried. -/
theorem spec_rate_limit_retry (attempts : Nat → HttpAttempt) (n fuel : Nat)
    (h429 : ∀ k, k < n → is429 (attempts k) = true)
    (hn : is429 (attempts n) = false) (hfuel : n < fuel) :
    makeRequest attempts fuel =
      some (settle (attempts n), (List.range n).map fun k => waitOf (attempts k)) := by
  induction n generalizing attempts fuel with
  | zero =>
    obtain ⟨f, rfl⟩ : ∃ f, fuel = f + 1 := ⟨fuel - 1, by omega⟩
    rw [makeRequest]
    cases hA : attempts 0 with
    | transportError s => simp [settle, hA]
    | resp r =>
      rw [hA] at hn
      simp only [is429] at hn
      simp [hn, settle, hA]
  | succ n ih =>
    obtain ⟨f, rfl⟩ : ∃ f, fuel = f + 1 := ⟨fuel - 1, by omega⟩
    have h0 := h429 0 (Nat.succ_pos n)
    cases hA : attempts 0 with
    | transportError s =>
      rw [hA] at h0
      simp [is429] at h0
    | resp r =>
      rw [hA] at h0
      simp only [is429] at h0
      rw [makeRequest, hA]
      dsimp only
      rw [if_pos h0]
      rw [ih (fun k => attempts (k + 1)) f
        (fun k hk => h429 (k + 1) (by omega)) hn (by omega)]
      rw [List.range_succ_eq_map]
      simp only [Option.map_some, List.map_cons, List.map_map]
      rw [hA]
      rfl

/-- C2 witness: a 429 response with Retry-After 5 followed by a success
    causes exactly one 5-second wait and then the settled success. -/
theorem spec_rate_limit_retry_witness :
    makeRequest demoAttempts 2 = some (Except.ok ({} : SlackBody), [5]) :=
  spec_rate_limit_retry demoAttempts 1 2
    (fun k hk => by
      have hk0 : k = 0 := by omega
      subst hk0
      rfl)
    rfl (by omega)

/-! ## Error mapping, export and filter-pipeline theorems -/

/-- C3 counterexample: the generic API error for an unclassified code and
    the configuration error for channel_not_found are raised with the same
    exception class (ValueError), and main reports both under the same
    label, so the generic API-error kind is not distinct from the
    configuration-error kind in the taxonomy the program realises. -/
theorem spec_api_error_kind_counterexample :
    handleResp respOtherError =
      Except.error ⟨.valueError, "Slack API error: fatal_error"⟩ ∧
    handleResp respChanNF =
      Except.error
        ⟨.valueError, "Channel not found. Please check the channel ID format (C...)"⟩ ∧
    mainErrorLabel ⟨.valueError, "Slack API error: fatal_error"⟩ =
      mainErrorLabel
        ⟨.valueError, "Channel not found. Please check the channel ID format (C...)"⟩ :=
  ⟨rfl, rfl, rfl⟩

/-- C3 (amended): a syntactically successful response whose body indicates
    failure raises an error chosen by its error code — channel_not_found
    names the channel-format convention, invalid_auth speaks of the
    credential, any other code produces a generic message carrying the raw
    code — but all three are raised as the same exception class
    (ValueError), which main reports as a configuration error. -/
theorem spec_api_error_mapping (r : HttpResp) (code : String)
    (hst : r.status < 400) (hok : r.body.ok = false)
    (hcode : r.body.error = some code) :
    ∃ e, handleResp r = .error e ∧ e.cls = .valueError ∧
      mainErrorLabel e = "Configuration Error" ∧
      (code = "channel_not_found" →
        e.msg = "Channel not found. Please check the channel ID format (C...)") ∧
      (code = "invalid_auth" →
        e.msg = "Invalid authentication. Please check your token.") ∧
      (code ≠ "channel_not_found" → code ≠ "invalid_auth" →
        e.msg = "Slack API error: " ++ code) := by
  unfold handleResp
  rw [if_neg (by omega), hok]
  rw [if_neg (by simp)]
  rw [hcode]
  simp only [Option.getD_some]
  by_cases h1 : code = "channel_not_found"
  · rw [if_pos h1]
    exact ⟨_, rfl, rfl, rfl, fun _ => rfl,
      fun h2 => absurd (h1 ▸ h2) (by decide), fun h2 _ => absurd h1 h2⟩
  · rw [if_neg h1]
    by_cases h2 : code = "invalid_auth"
    · rw [if_pos h2]
      exact ⟨_, rfl, rfl, rfl, fun h3 => absurd h3 h1, fun _ => rfl,
        fun _ h3 => absurd h2 h3⟩
    · rw [if_neg h2]
      exact ⟨_, rfl, rfl, rfl, fun h3 => absurd h3 h1, fun h3 => absurd h3 h2,
        fun _ _ => rfl⟩

/-- C3 witness: the amended mapping at the concrete unclassified-code
    response. -/
theorem spec_api_error_mapping_witness :
    ∃ e, handleResp respOtherError = .error e ∧ e.cls = .valueError ∧
      mainErrorLabel e = "Configuration Error" ∧
      ("fatal_error" = "channel_not_found" →
        e.msg = "Channel not found. Please check the channel ID format (C...)") ∧
      ("fatal_error" = "invalid_auth" →
        e.msg = "Invalid authentication. Please check your token.") ∧
      ("fatal_error" ≠ "channel_not_found" → "fatal_error" ≠ "invalid_auth" →
        e.msg = "Slack API error: " ++ "fatal_error") :=
  spec_api_error_mapping respOtherError "fatal_error" (by decide) rfl rfl

/-- C4: exporting a non-empty message list with an unsupported format fails,
    but — because the ValueError raised at parser.py line 232 is swallowed
    by the except Exception clause at line 241 — it surfaces as an IOError
    prefixed with the file-writing message, not as the configuration-error
    kind (ValueError). -/
theorem spec_export_invalid_format :
    (export_messages [msgA] "out/x.dat" "xml").2 =
      Except.error ⟨.ioError,
        "Error writing file: Unsupported format: xml. Use \x27json\x27 or \x27csv\x27"⟩ :=
  rfl

/-- C9: exporting an empty message list performs no filesystem action at all
    — no directory creation, no file write — and returns without error
    (parser.py lines 187-189: the empty check precedes both os.makedirs and
    open). -/
theorem spec_export_empty (output_path format : String) :
    export_messages [] output_path format = ([], .ok ()) := rfl

/-- C5: the time-range filter accepts a message exactly when its calendar
    timestamp is at least the lower bound (when present) and at most the
    upper bound (when present); both bounds are inclusive. -/
theorem spec_time_range_call (lo hi : Option ℚ) (m : SlackMessage) :
    TimeRangeFilter.call ⟨lo, hi⟩ m = true ↔
      ((∀ l, lo = some l → l ≤ m.datetimeOf) ∧
       (∀ h, hi = some h → m.datetimeOf ≤ h)) := by
  cases lo <;> cases hi <;>
    simp [TimeRangeFilter.call, not_lt]

/-- C5 witness: the filter with both bounds present, evaluated at the
    fixture message sitting strictly inside the range. -/
theorem spec_time_range_call_witness :
    TimeRangeFilter.call ⟨some 1, some 3⟩ msgA = true ↔
      ((∀ l, (some (1 : ℚ)) = some l → l ≤ msgA.datetimeOf) ∧
       (∀ h, (some (3 : ℚ)) = some h → msgA.datetimeOf ≤ h)) :=
  spec_time_range_call (some 1) (some 3) msgA

/-- C6: constructing the time-range filter fails — with a ValueError — if
    and only if both bounds are present and the lower is strictly after the
    upper; with the lower bound at most the upper (equality included), or
    with either bound absent, construction succeeds and stores the
    bounds. -/
theorem spec_time_range_init (lo hi : Option ℚ) :
    ((∃ e, TimeRangeFilter.init lo hi = .error e ∧ e.cls = .valueError) ↔
      (∃ l h, lo = some l ∧ hi = some h ∧ h < l)) ∧
    (∀ l h, lo = some l → hi = some h → l ≤ h →
      TimeRangeFilter.init lo hi = .ok ⟨lo, hi⟩) ∧
    (lo = none ∨ hi = none → TimeRangeFilter.init lo hi = .ok ⟨lo, hi⟩) := by
  cases lo with
  | none =>
    refine ⟨?_, ?_, ?_⟩
    · simp [TimeRangeFilter.init]
    · intro l h hl; exact absurd hl (by simp)
    · intro _; cases hi <;> rfl
  | some s =>
    cases hi with
    | none =>
      refine ⟨?_, ?_, ?_⟩
      · simp [TimeRangeFilter.init]
      · intro l h _ hh; exact absurd hh (by simp)
      · intro hor
        rcases hor with h1 | h1 <;> simp at h1
        rfl
    | some e =>
      refine ⟨?_, ?_, ?_⟩
      · by_cases hlt : e < s
        · constructor
          · intro _; exact ⟨s, e, rfl, rfl, hlt⟩
          · intro _
            refine ⟨⟨.valueError, "start_time must be before end_time"⟩, ?_, rfl⟩
            simp [TimeRangeFilter.init, hlt]
        · constructor
          · rintro ⟨e2, he2, _⟩
            rw [TimeRangeFilter.init, if_neg hlt] at he2
            simp at he2
          · rintro ⟨l, h, hl, hh, hlth⟩
            simp only [Option.some.injEq] at hl hh
            subst hl; subst hh
            exact absurd hlth hlt
      · intro l h hl hh hle
        simp only [Option.some.injEq] at hl hh
        subst hl; subst hh
        rw [TimeRangeFilter.init, if_neg (not_lt.mpr hle)]
      · intro hor
        rcases hor with h1 | h1 <;> simp at h1

/-- C6 witness: reversed bounds fail with a ValueError; equal bounds
    succeed. -/
theorem spec_time_range_init_witness :
    (∃ e, TimeRangeFilter.init (some 2) (some 1) = .error e ∧
      e.cls = .valueError) ∧
    TimeRangeFilter.init (some 2) (some 2) = .ok ⟨some 2, some 2⟩ :=
  ⟨(spec_time_range_init (some 2) (some 1)).1.mpr ⟨2, 1, rfl, rfl, by norm_num⟩,
   (spec_time_range_init (some 2) (some 2)).2.1 2 2 rfl rfl le_rfl⟩

/-- C8: applying the empty filter list returns the input unchanged; applying
    the filters in sequence equals one pass with their conjunction; and the
    result does not depend on the order in which the filters are listed. -/
theorem spec_filter_pipeline :
    (∀ msgs, filter_messages msgs [] = msgs) ∧
    (∀ msgs fs, filter_messages msgs fs =
      msgs.filter (fun m => fs.all (fun f => f m))) ∧
    (∀ msgs (fs fs' : List (SlackMessage → Bool)), fs.Perm fs' →
      filter_messages msgs fs = filter_messages msgs fs') := by
  have hconj : ∀ fs msgs, filter_messages msgs fs =
      msgs.filter (fun m => fs.all (fun f => f m)) := by
    intro fs
    induction fs with
    | nil => intro msgs; simp [filter_messages]
    | cons f fs ih =>
      intro msgs
      have h1 : filter_messages msgs (f :: fs) =
          filter_messages (msgs.filter f) fs := rfl
      rw [h1, ih, List.filter_filter]
      simp only [List.all_cons]
      exact List.filter_congr (fun a _ => Bool.and_comm _ _)
  refine ⟨fun msgs => rfl, fun msgs fs => hconj fs msgs, ?_⟩
  intro msgs fs fs' hperm
  rw [hconj, hconj]
  apply List.filter_congr
  intro m _
  have := fun f => hperm.mem_iff (a := f)
  cases hall : fs.all (fun f => f m) with
  | true =>
    symm
    rw [List.all_eq_true] at hall ⊢
    intro f hf
    exact hall f (hperm.mem_iff.mpr hf)
  | false =>
    symm
    rw [List.all_eq_false] at hall ⊢
    obtain ⟨f, hf, hfm⟩ := hall
    exact ⟨f, hperm.mem_iff.mp hf, hfm⟩

/-- C8 witness: order independence at two concrete filters. -/
theorem spec_filter_pipeline_witness :
    filter_messages [msgA] [fAll, fHello] = filter_messages [msgA] [fHello, fAll] :=
  spec_filter_pipeline.2.2 [msgA] [fAll, fHello] [fHello, fAll]
    (List.Perm.swap fHello fAll [])

/-! ## Regular-expression lemmas -/

lemma accepts_eps_iff (w : List Char) : Accepts .eps w ↔ w = [] := by
  constructor
  · intro h; cases h; rfl
  · intro h; rw [h]; exact .eps

lemma accepts_lit_iff (a : Char) (w : List Char) : Accepts (.lit a) w ↔ w = [a] := by
  constructor
  · intro h; cases h; rfl
  · intro h; rw [h]; exact .lit a

lemma accepts_anyc_iff (w : List Char) : Accepts .anyc w ↔ ∃ c, w = [c] := by
  constructor
  · intro h
    cases h with
    | anyChar c => exact ⟨c, rfl⟩
  · rintro ⟨c, h⟩; rw [h]; exact .anyChar c

lemma accepts_cat_iff (r₁ r₂ : Re) (w : List Char) :
    Accepts (.cat r₁ r₂) w ↔ ∃ u v, w = u ++ v ∧ Accepts r₁ u ∧ Accepts r₂ v := by
  constructor
  · intro h
    cases h with
    | cat h1 h2 => exact ⟨_, _, rfl, h1, h2⟩
  · rintro ⟨u, v, hw, h1, h2⟩; rw [hw]; exact .cat h1 h2

lemma accepts_alt_iff (r₁ r₂ : Re) (w : List Char) :
    Accepts (.alt r₁ r₂) w ↔ Accepts r₁ w ∨ Accepts r₂ w := by
  constructor
  · intro h
    cases h with
    | altL h1 => exact Or.inl h1
    | altR h2 => exact Or.inr h2
  · rintro (h | h)
    · exact .altL h
    · exact .altR h

lemma nullable_iff : ∀ r : Re, nullable r = true ↔ Accepts r [] := by
  intro r
  induction r with
  | failure =>
    simp only [nullable, Bool.false_eq_true, false_iff]
    intro h; nomatch h
  | eps => simp only [nullable, true_iff]; exact .eps
  | lit c =>
    simp only [nullable, Bool.false_eq_true, false_iff]
    intro h; nomatch h
  | anyc =>
    simp only [nullable, Bool.false_eq_true, false_iff]
    intro h; nomatch h
  | cat r1 r2 ih1 ih2 =>
    simp only [nullable, Bool.and_eq_true, ih1, ih2]
    constructor
    · rintro ⟨h1, h2⟩
      exact (List.nil_append []) ▸ Accepts.cat h1 h2
    · intro h
      rw [accepts_cat_iff] at h
      obtain ⟨u, v, hw, h1, h2⟩ := h
      obtain ⟨hu, hv⟩ := List.append_eq_nil.mp hw.symm
      exact ⟨hu ▸ h1, hv ▸ h2⟩
  | alt r1 r2 ih1 ih2 =>
    simp only [nullable, Bool.or_eq_true, ih1, ih2, accepts_alt_iff]
  | star r ih =>
    simp only [nullable, true_iff]
    exact .starNil

lemma accepts_derivRe_false : ∀ (r : Re) (c : Char) (w : List Char),
    Accepts (derivRe false r c) w ↔ Accepts r (c :: w) := by
  intro r
  induction r with
  | failure =>
    intro c w
    simp only [derivRe]
    constructor
    · intro h; nomatch h
    · intro h; nomatch h
  | eps =>
    intro c w
    simp only [derivRe]
    constructor
    · intro h; nomatch h
    · intro h; nomatch h
  | lit a =>
    intro c w
    simp only [derivRe, charMatch]
    by_cases h : a = c
    · rw [if_pos (by simp [h])]
      rw [accepts_eps_iff, accepts_lit_iff, h]
      constructor
      · intro hw; rw [hw]
      · intro hw; injection hw
    · rw [if_neg (by simp [h])]
      rw [accepts_lit_iff]
      constructor
      · intro hh; nomatch hh
      · intro hw
        injection hw with h1 h2
        exact absurd h1.symm h
  | anyc =>
    intro c w
    simp only [derivRe]
    rw [accepts_eps_iff, accepts_anyc_iff]
    constructor
    · intro hw; exact ⟨c, by rw [hw]⟩
    · rintro ⟨d, hd⟩
      exact (List.cons_eq_cons.mp hd).2
  | cat r1 r2 ih1 ih2 =>
    intro c w
    simp only [derivRe]
    by_cases h : nullable r1
    · rw [if_pos h, accepts_alt_iff, accepts_cat_iff, accepts_cat_iff]
      constructor
      · rintro (⟨u, v, hw, h1, h2⟩ | h2)
        · exact ⟨c :: u, v, by rw [hw]; rfl, (ih1 c u).mp h1, h2⟩
        · exact ⟨[], c :: w, rfl, (nullable_iff r1).mp h, (ih2 c w).mp h2⟩
      · rintro ⟨u, v, hw, h1, h2⟩
        cases u with
        | nil =>
          right
          rw [List.nil_append] at hw
          exact (ih2 c w).mpr (hw ▸ h2)
        | cons c2 u =>
          left
          rw [List.cons_append] at hw
          injection hw with hc hw2
          exact ⟨u, v, hw2, (ih1 c u).mpr (hc ▸ h1), h2⟩
    · rw [if_neg h, accepts_cat_iff, accepts_cat_iff]
      constructor
      · rintro ⟨u, v, hw, h1, h2⟩
        exact ⟨c :: u, v, by rw [hw]; rfl, (ih1 c u).mp h1, h2⟩
      · rintro ⟨u, v, hw, h1, h2⟩
        cases u with
        | nil => exact absurd ((nullable_iff r1).mpr h1) (by simpa using h)
        | cons c2 u =>
          rw [List.cons_append] at hw
          injection hw with hc hw2
          exact ⟨u, v, hw2, (ih1 c u).mpr (hc ▸ h1), h2⟩
  | alt r1 r2 ih1 ih2 =>
    intro c w
    simp only [derivRe]
    rw [accepts_alt_iff, accepts_alt_iff, ih1, ih2]
  | star r ih =>
    intro c w
    simp only [derivRe]
    rw [accepts_cat_iff]
    constructor
    · rintro ⟨u, v, hw, h1, h2⟩
      rw [hw]
      exact Accepts.starCons ((ih c u).mp h1) h2
    · intro h
      cases h with
      | starCons h1 h2 =>
        exact ⟨_, _, rfl, (ih c _).mpr h1, h2⟩

lemma matchRe_false_iff : ∀ (s : List Char) (r : Re),
    matchRe false r s = true ↔ Accepts r s := by
  intro s
  induction s with
  | nil =>
    intro r
    exact nullable_iff r
  | cons c s ih =>
    intro r
    show matchRe false (derivRe false r c) s = true ↔ _
    rw [ih]
    exact accepts_derivRe_false r c s

lemma nullable_lowerRe : ∀ r : Re, nullable (lowerRe r) = nullable r := by
  intro r
  induction r with
  | failure => rfl
  | eps => rfl
  | lit a => rfl
  | anyc => rfl
  | cat r1 r2 ih1 ih2 => simp [lowerRe, nullable, ih1, ih2]
  | alt r1 r2 ih1 ih2 => simp [lowerRe, nullable, ih1, ih2]
  | star r ih => rfl

lemma derivRe_lowerRe : ∀ (r : Re) (c : Char),
    derivRe false (lowerRe r) c.toLower = lowerRe (derivRe true r c) := by
  intro r
  induction r with
  | failure => intro c; rfl
  | eps => intro c; rfl
  | lit a =>
    intro c
    simp only [lowerRe, derivRe, charMatch]
    by_cases h : a.toLower = c.toLower
    · rw [if_pos (by simp [h]), if_pos (by simp [h])]
      rfl
    · rw [if_neg (by simp [h]), if_neg (by simp [h])]
      rfl
  | anyc => intro c; rfl
  | cat r1 r2 ih1 ih2 =>
    intro c
    simp only [lowerRe, derivRe, nullable_lowerRe]
    by_cases h : nullable r1
    · rw [if_pos h, if_pos h]
      simp [lowerRe, ih1, ih2]
    · rw [if_neg h, if_neg h]
      simp [lowerRe, ih1]
  | alt r1 r2 ih1 ih2 =>
    intro c
    simp [lowerRe, derivRe, ih1, ih2]
  | star r ih =>
    intro c
    simp [lowerRe, derivRe, ih]

lemma matchRe_lower : ∀ (s : List Char) (r : Re),
    matchRe true r s = matchRe false (lowerRe r) (s.map Char.toLower) := by
  intro s
  induction s with
  | nil => intro r; exact (nullable_lowerRe r).symm
  | cons c s ih =>
    intro r
    show matchRe true (derivRe true r c) s =
      matchRe false (derivRe false (lowerRe r) c.toLower) (s.map Char.toLower)
    rw [derivRe_lowerRe]
    exact ih (derivRe true r c)

lemma matchPref_lower : ∀ (s : List Char) (r : Re),
    matchPref true r s = matchPref false (lowerRe r) (s.map Char.toLower) := by
  intro s
  induction s with
  | nil => intro r; exact (nullable_lowerRe r).symm
  | cons c s ih =>
    intro r
    show (nullable r || matchPref true (derivRe true r c) s) =
      (nullable (lowerRe r) || matchPref false (derivRe false (lowerRe r) c.toLower)
        (s.map Char.toLower))
    rw [derivRe_lowerRe, nullable_lowerRe]
    rw [ih (derivRe true r c)]

lemma reSearch_lower : ∀ (s : List Char) (r : Re),
    reSearch true r s = reSearch false (lowerRe r) (s.map Char.toLower) := by
  intro s
  induction s with
  | nil => intro r; exact (nullable_lowerRe r).symm
  | cons c s ih =>
    intro r
    show (matchPref true r (c :: s) || reSearch true r s) =
      (matchPref false (lowerRe r) (c.toLower :: s.map Char.toLower) ||
        reSearch false (lowerRe r) (s.map Char.toLower))
    rw [← ih r]
    have := matchPref_lower (c :: s) r
    rw [List.map_cons] at this
    rw [← this]

lemma matchPref_iff (ci : Bool) : ∀ (t : List Char) (r : Re),
    matchPref ci r t = true ↔
      ∃ mid post, t = mid ++ post ∧ matchRe ci r mid = true := by
  intro t
  induction t with
  | nil =>
    intro r
    constructor
    · intro h; exact ⟨[], [], rfl, h⟩
    · rintro ⟨mid, post, hmp, hm⟩
      obtain ⟨h1, h2⟩ := List.append_eq_nil.mp hmp.symm
      rw [h1] at hm
      exact hm
  | cons c t ih =>
    intro r
    show (nullable r || matchPref ci (derivRe ci r c) t) = true ↔ _
    rw [Bool.or_eq_true, ih]
    constructor
    · rintro (h | ⟨mid, post, hmp, hm⟩)
      · exact ⟨[], c :: t, rfl, h⟩
      · exact ⟨c :: mid, post, by rw [hmp]; rfl, hm⟩
    · rintro ⟨mid, post, hmp, hm⟩
      cases mid with
      | nil =>
        left
        rw [List.nil_append] at hmp
        exact hm
      | cons c2 mid =>
        right
        rw [List.cons_append] at hmp
        obtain ⟨hc, ht⟩ := List.cons_eq_cons.mp hmp
        refine ⟨mid, post, ht, ?_⟩
        rw [hc]
        exact hm

lemma reSearch_iff (ci : Bool) : ∀ (s : List Char) (r : Re),
    reSearch ci r s = true ↔
      ∃ pre mid post, s = pre ++ mid ++ post ∧ matchRe ci r mid = true := by
  intro s
  induction s with
  | nil =>
    intro r
    constructor
    · intro h; exact ⟨[], [], [], rfl, h⟩
    · rintro ⟨pre, mid, post, hs, hm⟩
      obtain ⟨h1, h2⟩ := List.append_eq_nil.mp hs.symm
      obtain ⟨h3, h4⟩ := List.append_eq_nil.mp h1
      rw [h4] at hm
      exact hm
  | cons c s ih =>
    intro r
    show (matchPref ci r (c :: s) || reSearch ci r s) = true ↔ _
    rw [Bool.or_eq_true, matchPref_iff, ih]
    constructor
    · rintro (⟨mid, post, hmp, hm⟩ | ⟨pre, mid, post, hs, hm⟩)
      · exact ⟨[], mid, post, by rw [List.nil_append]; exact hmp, hm⟩
      · exact ⟨c :: pre, mid, post, by simp [hs], hm⟩
    · rintro ⟨pre, mid, post, hs, hm⟩
      cases pre with
      | nil =>
        left
        rw [List.nil_append] at hs
        exact ⟨mid, post, hs, hm⟩
      | cons c2 pre =>
        right
        rw [List.cons_append, List.cons_append] at hs
        obtain ⟨hc, ht⟩ := List.cons_eq_cons.mp hs
        exact ⟨pre, mid, post, ht, hm⟩

/-- C7: a pattern filter built with case-sensitivity off accepts a message
    exactly when the case-folded compiled pattern matches (in the standard
    regular-expression sense, Accepts) somewhere inside the case-folded
    message text — a partial match over some decomposition, not a full
    match — and construction from a pattern the parser rejects always fails
    with a ValueError. -/
theorem spec_regex_filter (p : String) :
    (∀ r, reParse p = .ok r →
      RegexFilter.init p false = .ok ⟨p, false, r⟩ ∧
      ∀ m : SlackMessage,
        (RegexFilter.call ⟨p, false, r⟩ m = true ↔
          ∃ pre mid post,
            m.text.data.map Char.toLower = pre ++ mid ++ post ∧
            Accepts (lowerRe r) mid)) ∧
    (∀ e, reParse p = .error e →
      ∃ err, RegexFilter.init p false = .error err ∧ err.cls = .valueError) := by
  constructor
  · intro r hr
    constructor
    · simp only [RegexFilter.init, hr]
    · intro m
      show reSearch true r m.text.data = true ↔ _
      rw [reSearch_lower, reSearch_iff]
      constructor
      · rintro ⟨pre, mid, post, hs, hm⟩
        exact ⟨pre, mid, post, hs, (matchRe_false_iff mid (lowerRe r)).mp hm⟩
      · rintro ⟨pre, mid, post, hs, hm⟩
        exact ⟨pre, mid, post, hs, (matchRe_false_iff mid (lowerRe r)).mpr hm⟩
  · intro e he
    refine ⟨⟨.valueError, "Invalid regex pattern \x27" ++ p ++ "\x27"⟩, ?_, rfl⟩
    simp only [RegexFilter.init, he]

/-- C7 witness: the pattern b, case-insensitively, applied to the
    upper-case fixture text. -/
theorem spec_regex_filter_witness :
    RegexFilter.init "b" false = .ok ⟨"b", false, Re.cat Re.eps (Re.lit 'b')⟩ ∧
    (RegexFilter.call ⟨"b", false, Re.cat Re.eps (Re.lit 'b')⟩ msgB = true ↔
      ∃ pre mid post,
        msgB.text.data.map Char.toLower = pre ++ mid ++ post ∧
        Accepts (lowerRe (Re.cat Re.eps (Re.lit 'b'))) mid) := by
  have h := (spec_regex_filter "b").1 (Re.cat Re.eps (Re.lit 'b')) (by rfl)
  exact ⟨h.1, h.2 msgB⟩

end Slackdump
